import Mathlib

/-!
Shallow embedding of the Directomatic redirect pipeline: row validation
(`processSheetRow`), locale expansion (`processBulkList` via `makeFullURL`),
the list/diff reports, and the batch publish protocol, together with proofs
of the spec's testable properties.
-/

set_option maxRecDepth 4000

namespace Directomatic

instance {ε α : Type} [DecidableEq ε] [DecidableEq α] : DecidableEq (Except ε α) := fun a b =>
  match a, b with
  | .error e, .error f => decidable_of_iff (e = f) ⟨fun h => by rw [h], fun h => by injection h⟩
  | .error _, .ok _ => isFalse (fun h => by injection h)
  | .ok _, .error _ => isFalse (fun h => by injection h)
  | .ok a, .ok b => decidable_of_iff (a = b) ⟨fun h => by rw [h], fun h => by injection h⟩

/-- The TypeScript union `string | number` used by the raw `code` field. -/
inductive StrOrNum where
  | str (s : String)
  | num (n : Int)
deriving DecidableEq

/-- The TypeScript union `string | boolean` used by the raw `localized` and
`deleted` fields. -/
inductive StrOrBool where
  | str (s : String)
  | bool (b : Bool)
deriving DecidableEq

/-- A raw spreadsheet row that could be a redirect object
(`RawRedirectProps` in `src/index.ts`); optional fields are `Option`. -/
structure RawRedirectProps where
  source : String
  destination : String
  code : Option StrOrNum
  localized : Option StrOrBool
  deleted : Option StrOrBool
deriving DecidableEq

/-- A validated and sanitized redirect object (`RedirectProps` in
`src/index.ts`). The `code` is one of 301, 302, 307, 308 by construction. -/
structure RedirectProps where
  source : String
  destination : String
  code : Nat
  localized : Bool
  deleted : Bool
deriving DecidableEq

/-- Character-level model of `string.toLowerCase()`: executable stand-in for
`String.toLower`, which does not reduce in the kernel. -/
def lowerStr (s : String) : String :=
  String.mk (s.data.map Char.toLower)

/-- Whitespace test used by the character-level `trimStr`. -/
def isSpaceChar (c : Char) : Bool :=
  c == ' ' || c == '\t' || c == '\n' || c == '\r'

/-- Character-level model of `string.trim()`: executable stand-in for
`String.trim`, which does not reduce in the kernel. -/
def trimStr (s : String) : String :=
  String.mk (((s.data.dropWhile isSpaceChar).reverse.dropWhile isSpaceChar).reverse)

/-- Character-level model of `string.startsWith(pre)` (equivalently of the
source's `path.indexOf(pre) === 0` test for a literal prefix). -/
def strStartsWith (s pre : String) : Bool :=
  pre.data.isPrefixOf s.data

/-- Character-level model of parsing a decimal natural from a string
(`parseInt`-style, all-digits required): executable stand-in for
`String.toNat?`, which does not reduce in the kernel. -/
def strToNat (s : String) : Option Nat :=
  if s.data ≠ [] && s.data.all Char.isDigit then
    some (s.data.foldl (fun n c => n * 10 + (c.toNat - 48)) 0)
  else none

/-- Modelled from the spec: `validateBoolean` of `src/validators.ts`, which is
not present under `src/`. Per the spec it accepts a boolean, or the strings
"true"/"false" case-insensitively; it falls back to the default when the field
is absent or empty, and fails on unrecognized non-empty text. -/
def validateBoolean (input : Option StrOrBool) (fallback : Bool) : Except Unit Bool :=
  match input with
  | none => .ok fallback
  | some (.bool b) => .ok b
  | some (.str s) =>
    if s = "" then .ok fallback
    else if lowerStr s = "true" then .ok true
    else if lowerStr s = "false" then .ok false
    else .error ()

/-- Modelled from the spec: `validatePath` of `src/validators.ts`, which is not
present under `src/`. Per the spec it fails unless the value is a non-empty
string recognizable as a URL path (absolute path or full URL), and returns the
trimmed path. -/
def validatePath (input : String) : Except Unit String :=
  let t := trimStr input
  if t = "" then .error ()
  else if strStartsWith t "/" || strStartsWith t "http://" || strStartsWith t "https://" then .ok t
  else .error ()

/-- Decides membership in the `RedirectCode` enum 301 | 302 | 307 | 308. -/
def isRedirectCode (n : Int) : Bool :=
  n == 301 || n == 302 || n == 307 || n == 308

/-- Modelled from the spec: `validateCode` of `src/validators.ts`, which is not
present under `src/`. Per the spec it accepts an integer or a numeric string,
falls back to the default when the field is absent or empty, and fails if the
resulting number is not one of 301, 302, 307, 308. -/
def validateCode (input : Option StrOrNum) (fallback : Nat) : Except Unit Nat :=
  match input with
  | none => .ok fallback
  | some (.num n) => if isRedirectCode n then .ok n.toNat else .error ()
  | some (.str s) =>
    if s = "" then .ok fallback
    else match strToNat s with
      | some n => if isRedirectCode n then .ok n else .error ()
      | none => .error ()

/-- `processSheetRow` from `src/processing.ts`: validate the five fields (any
failure rejects the row), then reject self-redirects, then silently reject
rows marked deleted. -/
def processSheetRow (input : RawRedirectProps) : Option RedirectProps :=
  match validatePath input.source, validatePath input.destination,
      validateCode input.code 302, validateBoolean input.localized true,
      validateBoolean input.deleted false with
  | .ok s, .ok d, .ok c, .ok l, .ok del =>
    if s = d then none
    else if del then none
    else some ⟨s, d, c, l, del⟩
  | _, _, _, _, _ => none

/-- The fixed ordered locale list `Locales` from `src/index.ts`. -/
def Locales : List String :=
  ["de-de", "en-au", "en-ca", "en-gb", "en-in", "en-us", "es-es", "fr-fr",
   "id-id", "it-it", "ja-jp", "ko-kr", "nl-nl", "pt-br", "ru-ru", "sv-se",
   "th-th", "tr-tr", "vi-vn", "zh-cn", "zh-hans-cn", "zh-tw"]

/-- The inner redirect rule of a bulk list item:
`\x7b source_url, target_url, status_code \x7d`. -/
structure BulkRedirect where
  source_url : String
  target_url : String
  status_code : Nat
deriving DecidableEq

/-- One wire-format item of the bulk redirect list: the rule wrapped as
`\x7b redirect: rule \x7d` (`BulkRedirectListItem` in `src/outputs.ts`). -/
structure BulkRedirectListItem where
  redirect : BulkRedirect
deriving DecidableEq

/-- `makeFullURL` from `src/processing.ts`: if the path starts with `/`
(the source's `path.indexOf('/') === 0`), prepend the default destination
domain and, when a locale is given (JavaScript truthiness: present and
non-empty), insert `/locale` between domain and path; otherwise return the
path unchanged. The configuration constant `DEFAULT_DEST_DOMAIN` is a
parameter. -/
def makeFullURL (DEFAULT_DEST_DOMAIN : String) (path : String) (locale : Option String) : String :=
  if strStartsWith path "/" then
    DEFAULT_DEST_DOMAIN ++
      (match locale with
        | some l => if l = "" then "" else "/" ++ l
        | none => "") ++ path
  else
    path

/-- `processBulkList` from `src/processing.ts`, with the configuration
constant `DEFAULT_DEST_DOMAIN` and the imported `Locales` list as parameters:
for each record emit the base entry, then (when `localized`) one entry per
locale in list order, skipping `en-us`, each wrapped as `\x7b redirect \x7d`. -/
def processBulkListWith (DEFAULT_DEST_DOMAIN : String) (locales : List String)
    (input : List RedirectProps) : List BulkRedirectListItem :=
  input.flatMap fun row =>
    let base : List BulkRedirect :=
      [⟨makeFullURL DEFAULT_DEST_DOMAIN row.source none,
        makeFullURL DEFAULT_DEST_DOMAIN row.destination none,
        row.code⟩]
    let list : List BulkRedirect :=
      base ++
        (if row.localized then
          locales.flatMap fun locale =>
            if locale = "en-us" then []
            else
              [⟨makeFullURL DEFAULT_DEST_DOMAIN row.source (some locale),
                makeFullURL DEFAULT_DEST_DOMAIN row.destination (some locale),
                row.code⟩]
        else [])
    list.map fun r => ⟨r⟩

/-- `processBulkList` applied to the fixed `Locales` list of `src/index.ts`. -/
def processBulkList (DEFAULT_DEST_DOMAIN : String) (input : List RedirectProps) :
    List BulkRedirectListItem :=
  processBulkListWith DEFAULT_DEST_DOMAIN Locales input

/-- Modelled from the spec: `ruleEquals` of `src/processing.ts` (the file is
truncated before it under `src/`). Per the spec it is structural equality on
the `(source_url, target_url, status_code)` tuple, ignoring the wrapper. -/
def ruleEquals (a b : BulkRedirectListItem) : Bool :=
  a.redirect.source_url == b.redirect.source_url &&
  a.redirect.target_url == b.redirect.target_url &&
  a.redirect.status_code == b.redirect.status_code

/-- Modelled from the spec: `ruleInList` of `src/processing.ts` (the file is
truncated before it under `src/`). Per the spec it is true iff some element
of the list is `ruleEquals` to the rule. -/
def ruleInList (rule : BulkRedirectListItem) (list : List BulkRedirectListItem) : Bool :=
  list.any fun r => ruleEquals rule r

/-- The added/removed pair computed by the `diff` subcommand. -/
structure DiffResult where
  added : List BulkRedirectListItem
  removed : List BulkRedirectListItem
deriving DecidableEq

/-- The set-difference core of the `diff` subcommand in `src/index.ts`:
`removedRules` are current (Cloudflare) rules not in the desired
(spreadsheet) list, `addedRules` are desired rules not in the current list. -/
def diff (spreadsheetList cloudflareList : List BulkRedirectListItem) : DiffResult :=
  { added := spreadsheetList.filter fun rule => !(ruleInList rule cloudflareList),
    removed := cloudflareList.filter fun rule => !(ruleInList rule spreadsheetList) }

/-- The fields of `DirectomaticResponse` that `uploadBatch` inspects on the
response of `uploadBulkList`; optional fields are `Option` (JavaScript
`undefined` is `none`). -/
structure UploadResponse where
  success : Option Bool
  errors : List String
  messages : List String
  invalidRules : List BulkRedirectListItem
  bulkOperationsId : Option String

/-- The decision logic of `uploadBatch` in `src/index.ts`, parametrized by the
external `getBulkOpsStatus` poller: when the response carries a truthy
`bulkOperationsId` (JavaScript truthiness: present and non-empty), the batch
outcome is the polled bulk-operation status; otherwise it is
`uploadResponse.success || false`. -/
def uploadBatch (getBulkOpsStatus : String → Bool) (uploadResponse : UploadResponse) : Bool :=
  match uploadResponse.bulkOperationsId with
  | some id =>
    if id = "" then uploadResponse.success.getD false
    else getBulkOpsStatus id
  | none => uploadResponse.success.getD false

/-- The batching loop of `publish` in `src/index.ts`:
`for (n = 0; n < len; n += batch) slice(n, n + batch)`, i.e. split the list
into consecutive chunks of `batch` elements. Structured recursion on a fuel
that is at least the list length so the definition evaluates in the kernel. -/
def chunkBatches (batch : Nat) : Nat → List α → List (List α)
  | _, [] => []
  | 0, _ :: _ => []
  | fuel + 1, x :: xs => ((x :: xs).take batch) :: chunkBatches batch fuel ((x :: xs).drop batch)

/-- The batches `publish` submits for a given bulk list (batch size 1000). -/
def publishBatches (bulkList : List BulkRedirectListItem) : List (List BulkRedirectListItem) :=
  chunkBatches 1000 bulkList.length bulkList

/-- The external collaborators a `publish` run calls, as pure oracles:
the truncate result of `emptyBulkList`, the per-batch response of
`uploadBulkList` (indexed by the 1-based batch number), and the
bulk-operation poller `getBulkOpsStatus`. -/
structure PublishEnv where
  emptyBulkList : Bool
  uploadBulkList : Nat → List BulkRedirectListItem → UploadResponse
  getBulkOpsStatus : String → Bool

/-- The observable protocol trace of one `publish` run: the (discarded)
truncate result, the batches submitted to `uploadBulkList`, and the
per-batch outcomes pushed onto `results`. -/
structure PublishTrace where
  truncateResult : Bool
  batches : List (List BulkRedirectListItem)
  results : List Bool
deriving DecidableEq

/-- The truncate-then-batch-upload protocol of `publish` in `src/index.ts`,
from the already-built bulk list on: call `emptyBulkList` (its result is not
inspected), then submit every 1000-element chunk in order to `uploadBatch`,
recording one boolean per batch; no step aborts the loop. -/
def publish (env : PublishEnv) (bulkList : List BulkRedirectListItem) : PublishTrace :=
  let batches := publishBatches bulkList
  { truncateResult := env.emptyBulkList,
    batches := batches,
    results := batches.enum.map fun p =>
      uploadBatch env.getBulkOpsStatus (env.uploadBulkList (p.1 + 1) p.2) }

/-- The report printed by the `list` subcommand: the valid rules and the
rows skimmed off into `badRows`. -/
structure ListReport where
  redirectsList : List RedirectProps
  badRows : List RawRedirectProps
deriving DecidableEq

/-- The row loop of the `list` subcommand in `src/index.ts`: each row is
processed with `processSheetRow`; a rejected row is pushed onto `badRows`
unless `validateBoolean(row.deleted, false)` holds — and that second
`validateBoolean` call sits outside any try/catch, so a throwing `deleted`
field aborts the whole run (`Except.error`), producing no report. -/
def listRun : List RawRedirectProps → Except Unit ListReport
  | [] => .ok ⟨[], []⟩
  | row :: rest =>
    match processSheetRow row with
    | some output =>
      (listRun rest).map fun rep => ⟨output :: rep.redirectsList, rep.badRows⟩
    | none =>
      match validateBoolean row.deleted false with
      | .error e => .error e
      | .ok del =>
        (listRun rest).map fun rep =>
          if !del then ⟨rep.redirectsList, row :: rep.badRows⟩ else rep

/-! ## Helper lemmas -/

lemma ruleEquals_refl (a : BulkRedirectListItem) : ruleEquals a a = true := by
  simp [ruleEquals]

lemma beq_symm_of_decEq {α : Type} [DecidableEq α] (a b : α) :
    (a == b) = (b == a) := by
  by_cases h : a = b
  · subst h; rfl
  · rw [beq_eq_false_iff_ne.mpr h, beq_eq_false_iff_ne.mpr (Ne.symm h)]

lemma ruleEquals_symm (a b : BulkRedirectListItem) : ruleEquals a b = ruleEquals b a := by
  simp only [ruleEquals]
  rw [beq_symm_of_decEq a.redirect.source_url, beq_symm_of_decEq a.redirect.target_url,
    beq_symm_of_decEq a.redirect.status_code]

lemma ruleInList_of_mem {a : BulkRedirectListItem} {l : List BulkRedirectListItem}
    (h : a ∈ l) : ruleInList a l = true := by
  simp only [ruleInList, List.any_eq_true]
  exact ⟨a, h, ruleEquals_refl a⟩

lemma flatMap_skip_default (locs : List String) (g : String → BulkRedirect) :
    (locs.flatMap fun locale => if locale = "en-us" then [] else [g locale]) =
      (locs.filter fun l => !(l == "en-us")).map g := by
  induction locs with
  | nil => simp
  | cons x xs ih =>
    by_cases hx : x = "en-us" <;> simp [hx, ih]

lemma processBulkListWith_singleton (D : String) (locs : List String) (r : RedirectProps) :
    processBulkListWith D locs [r] =
      (⟨⟨makeFullURL D r.source none, makeFullURL D r.destination none, r.code⟩⟩ :
          BulkRedirectListItem) ::
        (if r.localized then
          (locs.filter fun l => !(l == "en-us")).map fun l =>
            ⟨⟨makeFullURL D r.source (some l), makeFullURL D r.destination (some l), r.code⟩⟩
        else []) := by
  cases hloc : r.localized <;>
    simp [processBulkListWith, hloc, flatMap_skip_default, List.map_map, Function.comp]

lemma chunkBatches_join {α : Type} (batch : Nat) (hb : 0 < batch) :
    ∀ (fuel : Nat) (l : List α), l.length ≤ fuel → (chunkBatches batch fuel l).flatten = l := by
  intro fuel
  induction fuel with
  | zero =>
    intro l hl
    cases l with
    | nil => simp [chunkBatches]
    | cons x xs => simp at hl
  | succ fuel ih =>
    intro l hl
    cases l with
    | nil => simp [chunkBatches]
    | cons x xs =>
      simp only [chunkBatches, List.flatten_cons]
      rw [ih]
      · exact List.take_append_drop batch (x :: xs)
      · simp only [List.length_drop, List.length_cons] at hl ⊢
        omega

lemma chunkBatches_mem {α : Type} (batch : Nat) (hb : 0 < batch) :
    ∀ (fuel : Nat) (l : List α) (b : List α), b ∈ chunkBatches batch fuel l →
      b.length ≤ batch ∧ b ≠ [] := by
  intro fuel
  induction fuel with
  | zero =>
    intro l b hm
    cases l <;> simp [chunkBatches] at hm
  | succ fuel ih =>
    intro l b hm
    cases l with
    | nil => simp [chunkBatches] at hm
    | cons x xs =>
      simp only [chunkBatches, List.mem_cons] at hm
      rcases hm with rfl | hm
      · refine ⟨by simp [List.length_take], ?_⟩
        obtain ⟨m, rfl⟩ : ∃ m, batch = m + 1 := ⟨batch - 1, by omega⟩
        simp [List.take_succ_cons]
      · exact ih _ _ hm

lemma chunkBatches_replicate_step {α : Type} (batch fuel n : Nat) (x : α)
    (h1 : 0 < batch) (h2 : batch ≤ n) (h3 : 0 < fuel) :
    chunkBatches batch fuel (List.replicate n x) =
      List.replicate batch x :: chunkBatches batch (fuel - 1) (List.replicate (n - batch) x) := by
  obtain ⟨f, rfl⟩ : ∃ f, fuel = f + 1 := ⟨fuel - 1, by omega⟩
  obtain ⟨m, rfl⟩ : ∃ m, n = m + 1 := ⟨n - 1, by omega⟩
  rw [List.replicate_succ]
  simp only [chunkBatches, Nat.add_sub_cancel]
  rw [← List.replicate_succ, List.take_replicate, List.drop_replicate]
  congr 2
  omega

lemma chunkBatches_replicate_last {α : Type} (batch fuel n : Nat) (x : α)
    (h1 : 0 < n) (h2 : n ≤ batch) (h3 : 0 < fuel) :
    chunkBatches batch fuel (List.replicate n x) = [List.replicate n x] := by
  obtain ⟨f, rfl⟩ : ∃ f, fuel = f + 1 := ⟨fuel - 1, by omega⟩
  obtain ⟨m, rfl⟩ : ∃ m, n = m + 1 := ⟨n - 1, by omega⟩
  rw [List.replicate_succ]
  simp only [chunkBatches]
  rw [← List.replicate_succ, List.take_replicate, List.drop_replicate]
  have hmin : min batch (m + 1) = m + 1 := by omega
  have hsub : m + 1 - batch = 0 := by omega
  rw [hmin, hsub]
  simp [chunkBatches]

/-! ## Claim theorems -/

/-- Claim C10: every record returned (non-`none`) by `processSheetRow` has
`deleted = false`, so no redirect record marked deleted ever reaches
expansion, diffing, or publishing. -/
theorem processSheetRow_never_deleted (row : RawRedirectProps) (r : RedirectProps)
    (h : processSheetRow row = some r) : r.deleted = false := by
  unfold processSheetRow at h
  cases h1 : validatePath row.source <;>
    cases h2 : validatePath row.destination <;>
      cases h3 : validateCode row.code 302 <;>
        cases h4 : validateBoolean row.localized true <;>
          cases h5 : validateBoolean row.deleted false <;>
            simp only [h1, h2, h3, h4, h5] at h
  all_goals try exact Option.noConfusion h
  split at h
  · exact Option.noConfusion h
  · split at h
    · exact Option.noConfusion h
    · rename_i hdel
      cases h
      simpa using hdel

/-- Witness for C10 at a concrete row: the record produced for a plain
valid row has `deleted = false`. -/
theorem processSheetRow_never_deleted_witness :
    (⟨"/a", "/b", 302, true, false⟩ : RedirectProps).deleted = false :=
  processSheetRow_never_deleted ⟨"/a", "/b", none, none, none⟩ _ (by decide)

/-- Claim C4: whenever the validated source equals the validated destination,
`processSheetRow` rejects the row, regardless of the other fields. -/
theorem processSheetRow_rejects_self_redirect (row : RawRedirectProps) (p : String)
    (hs : validatePath row.source = .ok p) (hd : validatePath row.destination = .ok p) :
    processSheetRow row = none := by
  unfold processSheetRow
  rw [hs, hd]
  cases validateCode row.code 302 <;> cases validateBoolean row.localized true <;>
    cases validateBoolean row.deleted false <;> simp

/-- Witness for C4: the spec's example row
`\x7b source: "/a", destination: "/a", code: 302 \x7d` is rejected. -/
theorem processSheetRow_rejects_self_redirect_witness :
    processSheetRow ⟨"/a", "/a", some (.num 302), none, none⟩ = none :=
  processSheetRow_rejects_self_redirect ⟨"/a", "/a", some (.num 302), none, none⟩ "/a"
    (by decide) (by decide)

/-- Claim C3: a row whose `deleted` field validates to `true` is rejected by
`processSheetRow`, and the `list` run skips it silently: it contributes
neither to the valid rules nor to the invalid-rows report. -/
theorem deleted_row_skipped_silently (row : RawRedirectProps) (rest : List RawRedirectProps)
    (hdel : validateBoolean row.deleted false = .ok true) :
    processSheetRow row = none ∧ listRun (row :: rest) = listRun rest := by
  have hnone : processSheetRow row = none := by
    unfold processSheetRow
    rw [hdel]
    cases validatePath row.source <;> cases validatePath row.destination <;>
      cases validateCode row.code 302 <;> cases validateBoolean row.localized true <;> simp
  refine ⟨hnone, ?_⟩
  simp only [listRun, hnone, hdel]
  cases listRun rest <;> simp [Except.map]

/-- Witness for C3 at a concrete row: a checkbox-style `"TRUE"` in `deleted`
with otherwise-valid fields is rejected and leaves the report unchanged. -/
theorem deleted_row_skipped_silently_witness :
    processSheetRow ⟨"/a", "/b", some (.num 301), some (.bool true), some (.str "TRUE")⟩ = none ∧
    listRun [⟨"/a", "/b", some (.num 301), some (.bool true), some (.str "TRUE")⟩] = listRun [] :=
  deleted_row_skipped_silently ⟨"/a", "/b", some (.num 301), some (.bool true), some (.str "TRUE")⟩
    [] (by decide)

/-- Claim C5: expanding one record yields the base entry first, then one entry
per locale in the list's order with `en-us` skipped (when `localized`), and
only the base entry otherwise; with locale list `[de-de, en-us, es-es]` a
localized record yields exactly the base, `de-de`, and `es-es` entries, and
with the fixed 22-entry `Locales` list it yields 22 entries. -/
theorem processBulkList_expansion (D : String) (locs : List String) (r : RedirectProps) :
    processBulkListWith D locs [r] =
      (⟨⟨makeFullURL D r.source none, makeFullURL D r.destination none, r.code⟩⟩ :
          BulkRedirectListItem) ::
        (if r.localized then
          (locs.filter fun l => !(l == "en-us")).map fun l =>
            ⟨⟨makeFullURL D r.source (some l), makeFullURL D r.destination (some l), r.code⟩⟩
        else []) ∧
    processBulkListWith D ["de-de", "en-us", "es-es"] [r] =
      (if r.localized then
        [⟨⟨makeFullURL D r.source none, makeFullURL D r.destination none, r.code⟩⟩,
         ⟨⟨makeFullURL D r.source (some "de-de"), makeFullURL D r.destination (some "de-de"),
           r.code⟩⟩,
         ⟨⟨makeFullURL D r.source (some "es-es"), makeFullURL D r.destination (some "es-es"),
           r.code⟩⟩]
      else [⟨⟨makeFullURL D r.source none, makeFullURL D r.destination none, r.code⟩⟩]) ∧
    (processBulkList D [r]).length = (if r.localized then 22 else 1) := by
  have hf : (["de-de", "en-us", "es-es"].filter fun l => !(l == "en-us")) =
      ["de-de", "es-es"] := by decide
  have hL : (Locales.filter fun l => !(l == "en-us")).length = 21 := by decide
  refine ⟨processBulkListWith_singleton D locs r, ?_, ?_⟩
  · rw [processBulkListWith_singleton D ["de-de", "en-us", "es-es"] r, hf]
    cases r.localized <;> simp
  · rw [processBulkList, processBulkListWith_singleton D Locales r]
    cases r.localized <;> simp [hL]

/-- Claim C6: `makeFullURL` leaves a path that does not start with `/`
unchanged, never applying the domain or a locale prefix; a path starting with
`/` gets the default destination domain prepended, with `/locale` inserted
exactly when a (non-empty) locale is supplied; consequently locale expansion
never rewrites an absolute-URL destination even for a localized record. -/
theorem makeFullURL_resolution (D path : String) (locale : Option String) (l : String)
    (locs : List String) (r : RedirectProps) :
    (strStartsWith path "/" = false → makeFullURL D path locale = path) ∧
    (strStartsWith path "/" = true → makeFullURL D path none = D ++ path) ∧
    (strStartsWith path "/" = true → l ≠ "" →
      makeFullURL D path (some l) = D ++ "/" ++ l ++ path) ∧
    (strStartsWith r.destination "/" = false →
      ∀ e ∈ processBulkListWith D locs [r], e.redirect.target_url = r.destination) := by
  refine ⟨fun h => by simp [makeFullURL, h], fun h => ?_, fun h hl => ?_, fun h e he => ?_⟩
  · simp [makeFullURL, h]
  · simp [makeFullURL, h, hl, String.append_assoc]
  · rw [processBulkListWith_singleton D locs r] at he
    rcases List.mem_cons.mp he with rfl | hmem
    · simp [makeFullURL, h]
    · cases hloc : r.localized <;> rw [hloc] at hmem
      · simp at hmem
      · simp only [if_true, List.mem_map] at hmem
        obtain ⟨x, _, rfl⟩ := hmem
        simp [makeFullURL, h]

/-- Witness for C6: the absolute URL `https://other.example/x` passes through
`makeFullURL` unchanged under a locale, and the `de-de` entry expanded from a
localized record with that destination still targets it verbatim. -/
theorem makeFullURL_resolution_witness :
    makeFullURL "https://www.example.com" "https://other.example/x" (some "de-de") =
      "https://other.example/x" ∧
    (⟨⟨"https://www.example.com/de-de/a", "https://other.example/x", 302⟩⟩ :
        BulkRedirectListItem).redirect.target_url = "https://other.example/x" :=
  ⟨(makeFullURL_resolution "https://www.example.com" "https://other.example/x" (some "de-de")
      "de-de" ["de-de"] ⟨"/a", "https://other.example/x", 302, true, false⟩).1 (by decide),
   (makeFullURL_resolution "https://www.example.com" "https://other.example/x" (some "de-de")
      "de-de" ["de-de"] ⟨"/a", "https://other.example/x", 302, true, false⟩).2.2.2 (by decide)
      ⟨⟨"https://www.example.com/de-de/a", "https://other.example/x", 302⟩⟩ (by decide)⟩

/-- Claim C7: `diff` is a pure set difference under `ruleEquals`: `added` and
`removed` are exactly the one-sided filters, `diff X X` is empty in both
components, and on `[A, B]` versus `[B, C]` with pairwise-distinct rules it
yields `added = [A]`, `removed = [C]`. -/
theorem diff_set_difference (desired current X : List BulkRedirectListItem)
    (A B C : BulkRedirectListItem) :
    (diff desired current).added = (desired.filter fun d => !(ruleInList d current)) ∧
    (diff desired current).removed = (current.filter fun c => !(ruleInList c desired)) ∧
    diff X X = ⟨[], []⟩ ∧
    (ruleEquals A B = false → ruleEquals A C = false → ruleEquals B C = false →
      diff [A, B] [B, C] = ⟨[A], [C]⟩) := by
  refine ⟨rfl, rfl, ?_, fun h1 h2 h3 => ?_⟩
  · have hempty : (X.filter fun rule => !(ruleInList rule X)) = [] := by
      rw [List.filter_eq_nil_iff]
      intro a ha
      simp [ruleInList_of_mem ha]
    simp [diff, hempty]
  · have hBA : ruleEquals B A = false := by rw [ruleEquals_symm]; exact h1
    have hCA : ruleEquals C A = false := by rw [ruleEquals_symm]; exact h2
    have hCB : ruleEquals C B = false := by rw [ruleEquals_symm]; exact h3
    simp [diff, ruleInList, List.filter, h1, h2, h3, hBA, hCA, hCB, ruleEquals_refl]

/-- Witness for C7 at three concrete pairwise-distinct rules. -/
theorem diff_set_difference_witness :
    ruleEquals ⟨⟨"/1", "/a", 301⟩⟩ ⟨⟨"/2", "/b", 301⟩⟩ = false ∧
    diff [⟨⟨"/1", "/a", 301⟩⟩, ⟨⟨"/2", "/b", 301⟩⟩]
        [⟨⟨"/2", "/b", 301⟩⟩, ⟨⟨"/3", "/c", 301⟩⟩] =
      ⟨[⟨⟨"/1", "/a", 301⟩⟩], [⟨⟨"/3", "/c", 301⟩⟩]⟩ :=
  ⟨by decide,
   (diff_set_difference [] [] [] ⟨⟨"/1", "/a", 301⟩⟩ ⟨⟨"/2", "/b", 301⟩⟩
      ⟨⟨"/3", "/c", 301⟩⟩).2.2.2 (by decide) (by decide) (by decide)⟩

/-- Claim C9: when the upload response carries a (non-empty) bulk operations
id, the batch outcome recorded by `uploadBatch` is the polled status of that
operation, overriding the synchronous flag; with no id the outcome is the
synchronous `success` flag, and `false` when that flag is absent. -/
theorem uploadBatch_outcome (poll : String → Bool) (resp : UploadResponse) (id : String) :
    (resp.bulkOperationsId = some id → id ≠ "" → uploadBatch poll resp = poll id) ∧
    (resp.bulkOperationsId = none → uploadBatch poll resp = resp.success.getD false) ∧
    (resp.bulkOperationsId = none → resp.success = none → uploadBatch poll resp = false) := by
  refine ⟨fun h hid => ?_, fun h => ?_, fun h hs => ?_⟩
  · simp [uploadBatch, h, hid]
  · simp [uploadBatch, h]
  · simp [uploadBatch, h, hs]

/-- Witness for C9: a response whose synchronous flag is `false` but whose
bulk operation polls successful records `true`; an id-less response with an
absent flag records `false`. -/
theorem uploadBatch_outcome_witness :
    uploadBatch (fun _ => true) ⟨some false, [], [], [], some "op-1"⟩ = (fun _ => true) "op-1" ∧
    uploadBatch (fun _ => true) ⟨none, [], [], [], none⟩ = false :=
  ⟨(uploadBatch_outcome (fun _ => true) ⟨some false, [], [], [], some "op-1"⟩ "op-1").1 rfl
      (by decide),
   (uploadBatch_outcome (fun _ => true) ⟨none, [], [], [], none⟩ "op-1").2.2 rfl rfl⟩

/-- An environment whose truncate step fails and whose uploads all succeed
synchronously. -/
def failingTruncateEnv : PublishEnv :=
  { emptyBulkList := false,
    uploadBulkList := fun _ _ => ⟨some true, [], [], [], none⟩,
    getBulkOpsStatus := fun _ => true }

/-- Claim C1 counterexample: with a failed truncate and a one-rule list,
`publish` still submits the batch — one upload attempt, not zero, and a
normally recorded batch result rather than an aborted run. -/
theorem publish_uploads_despite_truncate_failure :
    (publish failingTruncateEnv [⟨⟨"/a", "/b", 301⟩⟩]).truncateResult = false ∧
    (publish failingTruncateEnv [⟨⟨"/a", "/b", 301⟩⟩]).batches = [[⟨⟨"/a", "/b", 301⟩⟩]] ∧
    (publish failingTruncateEnv [⟨⟨"/a", "/b", 301⟩⟩]).results = [true] := by
  refine ⟨rfl, ?_, ?_⟩ <;> decide

/-- Claim C1 (amended): `publish` ignores the result of the truncate step
entirely: the batches submitted and the results recorded are the same
whether `emptyBulkList` succeeds or fails, and every batch is uploaded with
one result recorded per batch. -/
theorem publish_truncate_result_ignored (env : PublishEnv)
    (bulkList : List BulkRedirectListItem) :
    (publish env bulkList).truncateResult = env.emptyBulkList ∧
    (publish env bulkList).batches = publishBatches bulkList ∧
    (publish env bulkList).results.length = (publishBatches bulkList).length ∧
    (publish ⟨false, env.uploadBulkList, env.getBulkOpsStatus⟩ bulkList).batches =
      (publish ⟨true, env.uploadBulkList, env.getBulkOpsStatus⟩ bulkList).batches ∧
    (publish ⟨false, env.uploadBulkList, env.getBulkOpsStatus⟩ bulkList).results =
      (publish ⟨true, env.uploadBulkList, env.getBulkOpsStatus⟩ bulkList).results := by
  refine ⟨rfl, rfl, ?_, rfl, rfl⟩
  simp [publish]

/-- The raw row of the C2 failing input: valid paths but a `deleted` field
holding non-boolean garbage. -/
def garbageDeletedRow : RawRedirectProps :=
  ⟨"/a", "/b", none, none, some (.str "banana")⟩

/-- Claim C2 (code bug): on a row whose `deleted` field is non-coercible
garbage, `processSheetRow` rejects the row, but the `list` run's second,
uncaught `validateBoolean(row.deleted, false)` call throws again, so the
whole run aborts with an error and no report (and no invalid-rows entry) is
produced. -/
theorem listRun_crashes_on_garbage_deleted :
    processSheetRow garbageDeletedRow = none ∧
    validateBoolean garbageDeletedRow.deleted false = .error () ∧
    listRun [garbageDeletedRow] = .error () := by
  refine ⟨?_, ?_, ?_⟩ <;> decide

lemma publish_batches_eq (env : PublishEnv) (l : List BulkRedirectListItem) :
    (publish env l).batches = publishBatches l := rfl

lemma publish_results_eq (env : PublishEnv) (l : List BulkRedirectListItem) :
    (publish env l).results = ((publishBatches l).enum.map fun p =>
      uploadBatch env.getBulkOpsStatus (env.uploadBulkList (p.1 + 1) p.2)) := rfl

/-- An environment for the C8 scenario: upload of batch 1 reports synchronous
failure, later batches succeed. -/
def batchOneFailsEnv : PublishEnv :=
  { emptyBulkList := true,
    uploadBulkList := fun i _ => ⟨some (decide (i ≠ 1)), [], [], [], none⟩,
    getBulkOpsStatus := fun _ => false }

/-- A fixed rule entry used to build the 2500-entry C8 upload list. -/
def sampleItem : BulkRedirectListItem := ⟨⟨"/s", "/t", 301⟩⟩

/-- Claim C8: `publish` splits the desired list into consecutive order-
preserving batches of at most 1000 entries and records one result per batch
for every environment (so every batch is attempted even when an earlier batch
fails); on 2500 entries it issues exactly 3 uploads of sizes 1000, 1000, 500,
and with batch 1 failing the recorded results are still one per batch. -/
theorem publish_batching (env : PublishEnv) (bulkList : List BulkRedirectListItem) :
    (publish env bulkList).batches.flatten = bulkList ∧
    (∀ b ∈ (publish env bulkList).batches, b.length ≤ 1000 ∧ b ≠ []) ∧
    (publish env bulkList).results.length = (publish env bulkList).batches.length ∧
    (publish batchOneFailsEnv (List.replicate 2500 sampleItem)).batches.map List.length =
      [1000, 1000, 500] ∧
    (publish batchOneFailsEnv (List.replicate 2500 sampleItem)).results =
      [false, true, true] := by
  have hb : publishBatches (List.replicate 2500 sampleItem) =
      [List.replicate 1000 sampleItem, List.replicate 1000 sampleItem,
       List.replicate 500 sampleItem] := by
    rw [publishBatches, List.length_replicate,
      chunkBatches_replicate_step 1000 2500 2500 sampleItem (by norm_num) (by norm_num)
        (by norm_num)]
    norm_num
    rw [chunkBatches_replicate_step 1000 2499 1500 sampleItem (by norm_num) (by norm_num)
      (by norm_num)]
    norm_num
    rw [chunkBatches_replicate_last 1000 2498 500 sampleItem (by norm_num) (by norm_num)
      (by norm_num)]
  refine ⟨?_, ?_, ?_, ?_, ?_⟩
  · exact chunkBatches_join 1000 (by norm_num) bulkList.length bulkList le_rfl
  · intro b hbm
    exact chunkBatches_mem 1000 (by norm_num) bulkList.length bulkList b hbm
  · simp [publish]
  · rw [publish_batches_eq, hb]
    simp
  · rw [publish_results_eq, hb]
    simp [List.enum, List.enumFrom, batchOneFailsEnv, uploadBatch]

/-- Witness for C8 on a small concrete run: the single batch of a one-rule
publish is within the size bound and non-empty. -/
theorem publish_batching_witness :
    ([sampleItem] : List BulkRedirectListItem).length ≤ 1000 ∧
      ([sampleItem] : List BulkRedirectListItem) ≠ [] :=
  (publish_batching batchOneFailsEnv [sampleItem]).2.1 [sampleItem] (by decide)

end Directomatic
